import Mathlib

/-!
Shallow embedding of the core of the `terraform-provider-remote-host`
repository: the Go `strings` helpers it relies on (modelled over `List Char`),
the SSH connection manager (`SSHService.go`), the command executor with its
sudo-password scrubbing step, and the remote-file state resolver (`getFile`).
External collaborators (the filesystem, the SSH library's key parsing, dial,
and `session.Run`) appear as oracle parameters, mirroring the spec's boundary.
-/

/-- Go strings are modelled as lists of characters. -/
abbrev Str := List Char

/-- Go `strings.HasPrefix s pat` with the pattern first: `hasPrefixStr pat s`
is true when `pat` is a prefix of `s`. -/
def hasPrefixStr : Str → Str → Bool
  | [], _ => true
  | _ :: _, [] => false
  | p :: ps, c :: cs => (p == c) && hasPrefixStr ps cs

/-- Go `strings.Contains s pat`: `pat` occurs as a contiguous substring of `s`. -/
def containsSub : Str → Str → Bool
  | [], pat => pat.isEmpty
  | c :: rest, pat => hasPrefixStr pat (c :: rest) || containsSub rest pat

/-- Go `strings.Split s "\n"`: the segments of `s` between newline
characters; always non-empty, with one more segment than newlines. -/
def splitOnNl : Str → List Str
  | [] => [[]]
  | c :: cs =>
    if c = '\n' then [] :: splitOnNl cs
    else
      match splitOnNl cs with
      | [] => [[c]]
      | l :: ls => (c :: l) :: ls

/-- Go `strings.Join lines "\n"`. -/
def joinNl : List Str → Str
  | [] => []
  | [l] => l
  | l :: ls => l ++ '\n' :: joinNl ls

/-- ASCII whitespace, as recognised by Go `unicode.IsSpace` on the ASCII
range (all this development needs). -/
def isSpaceChar (c : Char) : Bool :=
  (c == ' ') || (c == '\t') || (c == '\n') || (c == '\x0b') || (c == '\x0c') || (c == '\r')

/-- Go `strings.TrimSpace`. -/
def trimSpace (s : Str) : Str :=
  ((s.dropWhile isSpaceChar).reverse.dropWhile isSpaceChar).reverse

/-- The literal sudo prompt marker searched for by the scrubbing step. -/
def sudoMarker : Str := "[sudo] password for".data

/-! ## Data model (`servers/servers.go`) -/

/-- `servers.ServerCommand`: immutable record of one execution.
`exitCode` models the Go `int8` field as an integer in `[-128, 127]`. -/
structure ServerCommand where
  command : Str
  stdout : Str
  stderr : Str
  exitCode : Int
  deriving DecidableEq

/-- `servers.Server` (the `Args` and `Err` fields are never read by the core
and are omitted). -/
structure Server where
  name : Str
  address : Str
  port : Nat
  user : Str
  password : Str
  privateKeyPath : Str
  sudoPassword : Str
  history : List ServerCommand
  deriving DecidableEq

/-- `Server.GetFullAddress`: `fmt.Sprintf("%s:%s", s.Address, strconv.Itoa(int(s.Port)))`. -/
def GetFullAddress (s : Server) : Str :=
  s.address ++ ':' :: Nat.toDigits 10 s.port

/-! ## Connection manager (`SSHService.go`) -/

/-- One `ssh.AuthMethod` in the config built by `createSSHClient`. -/
inductive AuthMethod
  | password (pw : Str)
  | publicKeys (signer : Nat)
  deriving DecidableEq

/-- `ConnectionError` taxonomy: key-file read failure, key-material parse
failure, or dial/handshake failure. -/
inductive ConnError
  | readKeyError
  | parseKeyError
  | dialError
  deriving DecidableEq

/-- Oracles for the external collaborators of `createSSHClient`:
`filesystem.ReadFile`, `ssh.ParsePrivateKey` and `ssh.Dial`. Bytes are
modelled as `List Nat`; clients and signers as opaque numerals. -/
structure CreateEnv where
  readFile : Str → Except Unit (List Nat)
  parsePrivateKey : List Nat → Except Unit Nat
  dial : Str → List AuthMethod → Except Unit Nat

/-- The `conf.Auth` construction inside `createSSHClient`: password
authentication when a password is present, then public-key authentication
when a key path is present. When `ReadFile` fails but a password is
configured, the Go code falls through and parses the zero-value `nil` byte
slice, modelled as `[]`. -/
def buildAuthMethods (env : CreateEnv) (host : Server) :
    Except ConnError (List AuthMethod) :=
  let auth : List AuthMethod :=
    if host.password.length > 0 then [AuthMethod.password host.password] else []
  if host.privateKeyPath.length > 0 then
    match env.readFile host.privateKeyPath with
    | Except.error _ =>
      if host.password.length = 0 then Except.error ConnError.readKeyError
      else
        match env.parsePrivateKey [] with
        | Except.error _ => Except.error ConnError.parseKeyError
        | Except.ok signer => Except.ok (auth ++ [AuthMethod.publicKeys signer])
    | Except.ok keyFile =>
      match env.parsePrivateKey keyFile with
      | Except.error _ => Except.error ConnError.parseKeyError
      | Except.ok signer => Except.ok (auth ++ [AuthMethod.publicKeys signer])
  else Except.ok auth

/-- `createSSHClient`. Returns the dialled client together with the auth
method list that was passed to `ssh.Dial`, and (second component) the number
of dial attempts performed (`0` when a key failure aborts before dialling). -/
def createSSHClient (env : CreateEnv) (host : Server) :
    Except ConnError (Nat × List AuthMethod) × Nat :=
  match buildAuthMethods env host with
  | Except.error e => (Except.error e, 0)
  | Except.ok auth2 =>
    match env.dial (GetFullAddress host) auth2 with
    | Except.error _ => (Except.error ConnError.dialError, 1)
    | Except.ok client => (Except.ok (client, auth2), 1)

/-- `services.SSHConnection`. -/
structure SSHConnection where
  host : Server
  client : Nat
  deriving DecidableEq

/-- The lookup loop `for _, connection := range service.connections { if
connection.host.Name == host.Name ... }` shared by the service methods. -/
def findConnection (conns : List SSHConnection) (name : Str) : Option SSHConnection :=
  conns.find? (fun c => c.host.name == name)

/-- `SSHService.OpenConnection`. Returns the call's result, the registry
afterwards, and the number of dial attempts performed. -/
def OpenConnection (env : CreateEnv) (conns : List SSHConnection) (host : Server) :
    Except ConnError Unit × List SSHConnection × Nat :=
  match findConnection conns host.name with
  | some _ => (Except.ok (), conns, 0)
  | none =>
    match createSSHClient env host with
    | (Except.error e, d) => (Except.error e, conns, d)
    | (Except.ok (client, _), d) => (Except.ok (), conns ++ [⟨host, client⟩], d)

/-- The loop body of `NewSSHService`: skip hosts whose name is already
connected, skip (log only) hosts whose client creation fails, register the
rest. -/
def bulkStep (env : CreateEnv) (conns : List SSHConnection) (host : Server) :
    List SSHConnection :=
  match findConnection conns host.name with
  | some _ => conns
  | none =>
    match createSSHClient env host with
    | (Except.error _, _) => conns
    | (Except.ok (client, _), _) => conns ++ [⟨host, client⟩]

/-- `NewSSHService`: best-effort bulk construction; duplicate names and
failed dials are skipped. -/
def NewSSHService (env : CreateEnv) (hosts : List Server) : List SSHConnection :=
  hosts.foldl (bulkStep env) []

/-- `SSHService.CloseConnection` closes the transport but does not remove the
connection from the registry, which is returned unchanged. -/
def CloseConnection (conns : List SSHConnection) (_c : SSHConnection) : List SSHConnection :=
  conns

/-- A connection-manager call, for stating the registry invariant over
arbitrary operation sequences. -/
inductive ServiceOp
  | openConn (host : Server)
  | closeConn (c : SSHConnection)

/-- Run a sequence of connection-manager calls against a registry. -/
def runOps (env : CreateEnv) (ops : List ServiceOp) (conns : List SSHConnection) :
    List SSHConnection :=
  ops.foldl
    (fun st op =>
      match op with
      | ServiceOp.openConn h => (OpenConnection env st h).2.1
      | ServiceOp.closeConn c => CloseConnection st c)
    conns

/-- The registry invariant: no two registered connections share a server name. -/
def uniqueNames (conns : List SSHConnection) : Prop :=
  (conns.map (fun c => c.host.name)).Nodup

/-! ## Command executor (`SSHService.go`) -/

/-- The error of `session.Run`: `none` models a nil error, `exitStatus n` an
`ssh.ExitError` with remote exit status `n`, `otherError` any other failure. -/
inductive RunError
  | exitStatus (n : Nat)
  | otherError
  deriving DecidableEq

/-- Go's `int8(n)` conversion for a non-negative exit status. -/
def int8ofNat (n : Nat) : Int :=
  ((n : Int) + 128) % 256 - 128

/-- `extractExitCode`: the `int8` status of an `ssh.ExitError`, else `0`. -/
def extractExitCode : Option RunError → Int
  | some (RunError.exitStatus n) => int8ofNat n
  | _ => 0

/-- Failures of `ExecuteCommand` before the command runs. -/
inductive ExecError
  | noConnection
  | sessionError
  | ptyError
  deriving DecidableEq

/-- The outcome of one remote interaction, as observed by `ExecuteCommand`:
session allocation failure, pty request failure, or a run with captured raw
stdout/stderr and the error returned by `session.Run`. -/
inductive ExecOutcome
  | sessionFail
  | ptyFail
  | ran (stdout stderr : Str) (runErr : Option RunError)
  deriving DecidableEq

/-- `extractSudoPasswordFromOutput`: scrub the echoed priming password (and
any sudo prompt lines) from captured stdout. -/
def extractSudoPasswordFromOutput (stdout password : Str) : Str :=
  let commandOutput := splitOnNl stdout
  let commandOutput2 :=
    if containsSub stdout sudoMarker then
      commandOutput.filter
        (fun line => !containsSub line password && !containsSub line sudoMarker)
    else
      if decide (commandOutput.length > 0) && containsSub (commandOutput.headD []) password then
        commandOutput.tail
      else commandOutput
  joinNl commandOutput2

/-- `SSHService.ExecuteCommand`: resolve the connection, run the command
through an interactive session (the remote interaction itself is the
`outcome` oracle), scrub the captured stdout with the registered host's
`SudoPassword`, build the `ServerCommand`, append it to the passed server's
history, and return it together with the unmodified `session.Run` error. -/
def ExecuteCommand (conns : List SSHConnection) (command : Str) (server : Server)
    (outcome : ExecOutcome) :
    Except ExecError (ServerCommand × Option RunError × Server) :=
  match findConnection conns server.name with
  | none => Except.error ExecError.noConnection
  | some connection =>
    match outcome with
    | ExecOutcome.sessionFail => Except.error ExecError.sessionError
    | ExecOutcome.ptyFail => Except.error ExecError.ptyError
    | ExecOutcome.ran stdout stderr runErr =>
      let scrubbed := extractSudoPasswordFromOutput stdout connection.host.sudoPassword
      let serverCommand : ServerCommand :=
        { command := command, stdout := scrubbed, stderr := stderr,
          exitCode := extractExitCode runErr }
      Except.ok (serverCommand, runErr,
        { server with history := server.history ++ [serverCommand] })

/-! ## Remote-file state resolver (`RemoteFileResource`, `getFile`) -/

/-- `HostConnectionModel`: the `host_connection` block attributes. -/
structure HostConnectionModel where
  host : Str
  user : Str
  privateKey : Str
  password : Str
  deriving DecidableEq

/-- `RemoteFileResourceModel`: the resource data model. -/
structure RemoteFileResourceModel where
  id : Str
  hostConnection : HostConnectionModel
  path : Str
  content : Str
  privileged : Bool
  sensitive : Bool
  sensitiveContent : Str
  deriving DecidableEq

/-- The `servers.Server` literal built at the top of `getFile`. Fields not
assigned by the Go struct literal (`Password`, `SudoPassword`, `History`)
keep their zero values. -/
def serverForGetFile (data : RemoteFileResourceModel) : Server :=
  { address := data.hostConnection.host
    privateKeyPath := data.hostConnection.privateKey
    user := data.hostConnection.user
    port := 22
    name := data.hostConnection.host
    password := []
    sudoPassword := []
    history := [] }

/-- The single-quote character of the `stat -c` format argument. -/
def squote : Char := Char.ofNat 39

/-- The combined command: `fmt.Sprintf("%sstat -c '%%i' %s; %scat %s", ...)`. -/
def combinedCommand (privileged : Bool) (path : Str) : Str :=
  let sudoText : Str := if privileged then "sudo ".data else []
  sudoText ++ "stat -c ".data ++ squote :: "%i".data ++ squote :: ' ' :: path
    ++ "; ".data ++ sudoText ++ "cat ".data ++ path

/-- The parse step of `getFile`: split stdout on newlines, read
`TrimSpace(outputs[1])` as the inode and `Join(outputs[2:], "\n")` as the
content. `outputs[1]` is indexed without a length guard; `none` models the
out-of-range panic raised when fewer than two lines are present. -/
def parseStdout (stdout : Str) : Option (Str × Str) :=
  match splitOnNl stdout with
  | _ :: out1 :: rest => some (trimSpace out1, joinNl rest)
  | _ => none

/-- The resource identity: `fmt.Sprintf("%s-%s", host, inode)`. -/
def resourceId (address inode : Str) : Str :=
  address ++ '-' :: inode

/-- The errors `getFile` can return: the `OpenConnection` error, an
`ExecuteCommand` pre-run error, the raw `session.Run` error returned
unmodified through `ExecuteCommand`, or the provider's `ExitCodeError`. -/
inductive GetFileError
  | connError (e : ConnError)
  | execError (e : ExecError)
  | runError (e : RunError)
  | exitCodeError (code : Int) (stderr : Str)
  deriving DecidableEq

/-- Outcome of a `getFile` call: success with the updated model, a typed
error with the model as the call left it, or a runtime panic. -/
inductive GetFileResult
  | ok (d : RemoteFileResourceModel)
  | fail (e : GetFileError) (d : RemoteFileResourceModel)
  | panicked
  deriving DecidableEq

/-- The tail of `getFile` after `ExecuteCommand` returns (lines 174-199 of
the resource file): propagate the execution error unmodified if non-nil,
then the (unreachable) `ExitCodeError` check, then parse stdout into
id/content, routing content by the `sensitive` flag. -/
def resolveCommandResult (data : RemoteFileResourceModel)
    (res : Except ExecError (ServerCommand × Option RunError × Server)) : GetFileResult :=
  match res with
  | Except.error e => GetFileResult.fail (GetFileError.execError e) data
  | Except.ok (_, some e, _) => GetFileResult.fail (GetFileError.runError e) data
  | Except.ok (command, none, _) =>
    if command.exitCode ≠ 0 then
      GetFileResult.fail (GetFileError.exitCodeError command.exitCode command.stderr) data
    else
      match parseStdout command.stdout with
      | none => GetFileResult.panicked
      | some (inode, content) =>
        GetFileResult.ok { data with
          id := resourceId data.hostConnection.host inode
          content := if data.sensitive then [] else content
          sensitiveContent := if data.sensitive then content else [] }

/-- `getFile`: build the server descriptor, open (or reuse) the connection,
run the combined stat/cat command, and treat its result as
`resolveCommandResult` does. -/
def getFile (env : CreateEnv) (conns : List SSHConnection) (outcome : ExecOutcome)
    (data : RemoteFileResourceModel) : GetFileResult :=
  let server := serverForGetFile data
  match OpenConnection env conns server with
  | (Except.error e, _, _) => GetFileResult.fail (GetFileError.connError e) data
  | (Except.ok _, conns1, _) =>
    resolveCommandResult data
      (ExecuteCommand conns1 (combinedCommand data.privileged data.path) server outcome)

/-- Modelled from the spec: the scrubbing algorithm as §4.2 words it, with
the prompt-branch condition phrased per line ("if any line contains the
literal substring marking a privilege-escalation password prompt"), for
comparison with the source's whole-string test. -/
def scrubDescribed (stdout password : Str) : Str :=
  let lines := splitOnNl stdout
  let kept :=
    if lines.any (fun line => containsSub line sudoMarker) then
      lines.filter
        (fun line => !containsSub line password && !containsSub line sudoMarker)
    else
      if containsSub (lines.headD []) password then lines.tail
      else lines
  joinNl kept

/-- Classifier for `getFile` results that carry the provider's
`ExitCodeError`. -/
def isExitCodeErrorResult : GetFileResult → Bool
  | GetFileResult.fail (GetFileError.exitCodeError _ _) _ => true
  | _ => false

/-- On a failing result, the resource model was left exactly as passed in. -/
def failKeepsData (r : GetFileResult) (d0 : RemoteFileResourceModel) : Bool :=
  match r with
  | GetFileResult.fail _ d => decide (d = d0)
  | _ => true

/-- Classifier for password-based auth methods. -/
def isPasswordAuth : AuthMethod → Bool
  | AuthMethod.password _ => true
  | AuthMethod.publicKeys _ => false

deriving instance DecidableEq for Except

/-! ## Concrete fixtures for witnesses and counterexamples -/

/-- Oracle fixture: the key file is unreadable, key material never parses,
and every dial succeeds with client `0`. -/
def env0 : CreateEnv :=
  { readFile := fun _ => Except.error ()
    parsePrivateKey := fun _ => Except.error ()
    dial := fun _ _ => Except.ok 0 }

/-- Resource fixture: a non-privileged, non-sensitive file on `10.0.0.5`. -/
def data0 : RemoteFileResourceModel :=
  { id := []
    hostConnection :=
      { host := "10.0.0.5".data, user := "alice".data, privateKey := [], password := [] }
    path := "/etc/app.conf".data
    content := []
    privileged := false
    sensitive := false
    sensitiveContent := [] }

/-- A password-less, key-less server fixture. -/
def server1 : Server :=
  { name := "a".data, address := "a".data, port := 22, user := "u".data,
    password := [], privateKeyPath := [], sudoPassword := [], history := [] }

/-- A server fixture with both a password and a private-key path. -/
def serverKey : Server :=
  { name := "k".data, address := "k".data, port := 22, user := "u".data,
    password := "pw".data, privateKeyPath := "/root/key".data,
    sudoPassword := [], history := [] }

/-- A resource fixture whose `host_connection` block carries a password. -/
def dataPw : RemoteFileResourceModel :=
  { data0 with
    hostConnection :=
      { host := "10.0.0.5".data, user := "alice".data, privateKey := [],
        password := "hunter2".data } }

/-! ## String-layer lemmas -/

theorem splitOnNl_ne_nil (s : Str) : splitOnNl s ≠ [] := by
  cases s with
  | nil => simp [splitOnNl]
  | cons c cs =>
    simp only [splitOnNl]
    split
    · simp
    · split <;> simp

theorem joinNl_cons_cons (l l2 : Str) (ls : List Str) :
    joinNl (l :: l2 :: ls) = l ++ '\n' :: joinNl (l2 :: ls) := rfl

theorem joinNl_splitOnNl (s : Str) : joinNl (splitOnNl s) = s := by
  induction s with
  | nil => rfl
  | cons c cs ih =>
    by_cases hc : c = '\n'
    · subst hc
      have hs : splitOnNl ('\n' :: cs) = [] :: splitOnNl cs := by
        simp [splitOnNl]
      rw [hs]
      rcases h : splitOnNl cs with _ | ⟨l, ls⟩
      · exact absurd h (splitOnNl_ne_nil cs)
      · rw [h] at ih
        rw [joinNl_cons_cons]
        simpa using ih
    · have hs : splitOnNl (c :: cs) =
          match splitOnNl cs with
          | [] => [[c]]
          | l :: ls => (c :: l) :: ls := by
        simp [splitOnNl, hc]
      rw [hs]
      rcases h : splitOnNl cs with _ | ⟨l, ls⟩
      · exact absurd h (splitOnNl_ne_nil cs)
      · rw [h] at ih
        cases ls with
        | nil =>
          simp only [joinNl] at ih ⊢
          simp [ih]
        | cons l2 ls2 =>
          rw [joinNl_cons_cons] at ih ⊢
          simp only [List.cons_append]
          rw [ih]

theorem splitOnNl_head (s : Str) :
    ∃ ls, splitOnNl s = (s.takeWhile (fun c => c != '\n')) :: ls := by
  induction s with
  | nil => exact ⟨[], rfl⟩
  | cons c cs ih =>
    by_cases hc : c = '\n'
    · subst hc
      refine ⟨splitOnNl cs, ?_⟩
      simp [splitOnNl, List.takeWhile_cons]
    · obtain ⟨ls, h⟩ := ih
      refine ⟨ls, ?_⟩
      simp [splitOnNl, hc, h, List.takeWhile_cons]

theorem hasPrefixStr_takeWhile (pat : Str) (hp : '\n' ∉ pat) :
    ∀ s : Str, hasPrefixStr pat s = hasPrefixStr pat (s.takeWhile (fun c => c != '\n')) := by
  induction pat with
  | nil => intro s; rfl
  | cons p ps ih =>
    intro s
    cases s with
    | nil => rfl
    | cons c cs =>
      by_cases hc : c = '\n'
      · subst hc
        have hpc : p ≠ '\n' := fun h => hp (h ▸ List.mem_cons_self _ _)
        have hb : (p == '\n') = false := beq_eq_false_iff_ne.mpr hpc
        simp [hasPrefixStr, List.takeWhile_cons, hb]
      · have hps : '\n' ∉ ps := fun h => hp (List.mem_cons_of_mem _ h)
        simp [hasPrefixStr, List.takeWhile_cons, hc, ih hps cs]

theorem containsSub_nil_pat (s : Str) : containsSub s [] = true := by
  cases s <;> simp [containsSub, hasPrefixStr]

/-- A newline-free pattern occurs in a string exactly when it occurs in one of
its newline-separated lines. -/
theorem containsSub_eq_any (pat : Str) (hp : '\n' ∉ pat) :
    ∀ s : Str, containsSub s pat = (splitOnNl s).any (fun l => containsSub l pat) := by
  intro s
  induction s with
  | nil => simp [containsSub, splitOnNl]
  | cons c cs ih =>
    by_cases hc : c = '\n'
    · subst hc
      have hs : splitOnNl ('\n' :: cs) = [] :: splitOnNl cs := by
        simp [splitOnNl]
      rw [hs]
      rcases pat with _ | ⟨p, ps⟩
      · simp [containsSub_nil_pat]
      · have hpc : p ≠ '\n' := fun h => hp (h ▸ List.mem_cons_self _ _)
        have hb : (p == '\n') = false := beq_eq_false_iff_ne.mpr hpc
        simp only [containsSub, hasPrefixStr, hb, Bool.false_and, Bool.false_or,
          List.any_cons, List.isEmpty]
        rw [ih]
    · obtain ⟨ls, hsplit⟩ := splitOnNl_head cs
      have hs : splitOnNl (c :: cs) = (c :: cs.takeWhile (fun x => x != '\n')) :: ls := by
        simp [splitOnNl, hc, hsplit]
      rw [hs]
      have hcs : containsSub (c :: cs) pat
          = (hasPrefixStr pat (c :: cs) || containsSub cs pat) := rfl
      rw [hcs, hasPrefixStr_takeWhile pat hp (c :: cs), ih, hsplit]
      have htw : (c :: cs).takeWhile (fun x => x != '\n') =
          c :: cs.takeWhile (fun x => x != '\n') := by
        simp [List.takeWhile_cons, hc]
      rw [htw]
      simp only [List.any_cons, containsSub]
      rw [Bool.or_assoc]


theorem scrub_eq_scrubDescribed (stdout password : Str) :
    extractSudoPasswordFromOutput stdout password = scrubDescribed stdout password := by
  simp only [extractSudoPasswordFromOutput, scrubDescribed]
  rw [← containsSub_eq_any sudoMarker (by decide) stdout]
  have hlen : decide ((splitOnNl stdout).length > 0) = true := by
    simp [List.length_pos, splitOnNl_ne_nil stdout]
  rw [hlen]
  simp

theorem splitOnNl_of_not_mem {s : Str} (h : '\n' ∉ s) : splitOnNl s = [s] := by
  induction s with
  | nil => rfl
  | cons c cs ih =>
    have hc : ¬ c = '\n' := fun hx => h (hx ▸ List.mem_cons_self _ _)
    have hcs : '\n' ∉ cs := fun hx => h (List.mem_cons_of_mem _ hx)
    simp [splitOnNl, hc, ih hcs]

theorem find?_append_of_none {α : Type} {p : α → Bool} {l1 l2 : List α}
    (h : l1.find? p = none) : (l1 ++ l2).find? p = l2.find? p := by
  induction l1 with
  | nil => simp
  | cons a l ih =>
    cases hpa : p a with
    | true => simp [List.find?_cons, hpa] at h
    | false =>
      simp only [List.find?_cons, hpa] at h
      simp only [List.cons_append, List.find?_cons, hpa]
      exact ih h

theorem uniqueNames_nil : uniqueNames [] := by
  simp [uniqueNames]

theorem uniqueNames_append {conns : List SSHConnection} {x : SSHConnection}
    (h : uniqueNames conns) (hfind : findConnection conns x.host.name = none) :
    uniqueNames (conns ++ [x]) := by
  unfold uniqueNames at h ⊢
  rw [List.map_append]
  rw [List.nodup_append]
  refine ⟨h, List.nodup_singleton _, ?_⟩
  intro n hn hx
  simp only [List.map_cons, List.map_nil, List.mem_singleton] at hx
  subst hx
  obtain ⟨c, hc, hcn⟩ := List.mem_map.mp hn
  have := List.find?_eq_none.mp hfind c hc
  simp only [beq_iff_eq] at this
  exact this (by rw [hcn])

theorem open_preserves_unique (env : CreateEnv) (st : List SSHConnection) (host : Server)
    (h : uniqueNames st) : uniqueNames (OpenConnection env st host).2.1 := by
  unfold OpenConnection
  cases hf : findConnection st host.name with
  | some c => exact h
  | none =>
    rcases hcc : createSSHClient env host with ⟨r, d⟩
    cases r with
    | error e => exact h
    | ok x =>
      rcases x with ⟨client, auths⟩
      exact uniqueNames_append h hf

theorem bulkStep_preserves_unique (env : CreateEnv) (st : List SSHConnection) (host : Server)
    (h : uniqueNames st) : uniqueNames (bulkStep env st host) := by
  unfold bulkStep
  cases hf : findConnection st host.name with
  | some c => exact h
  | none =>
    rcases hcc : createSSHClient env host with ⟨r, d⟩
    cases r with
    | error e => exact h
    | ok x =>
      rcases x with ⟨client, auths⟩
      exact uniqueNames_append h hf

theorem newService_unique (env : CreateEnv) (hosts : List Server) :
    uniqueNames (NewSSHService env hosts) := by
  unfold NewSSHService
  have : ∀ (hs : List Server) (acc : List SSHConnection), uniqueNames acc →
      uniqueNames (hs.foldl (bulkStep env) acc) := by
    intro hs
    induction hs with
    | nil => intro acc h; exact h
    | cons a t ih =>
      intro acc h
      rw [List.foldl_cons]
      exact ih _ (bulkStep_preserves_unique env acc a h)
  exact this hosts [] uniqueNames_nil

theorem runOps_preserves_unique (env : CreateEnv) (ops : List ServiceOp) :
    ∀ st : List SSHConnection, uniqueNames st → uniqueNames (runOps env ops st) := by
  induction ops with
  | nil => intro st h; exact h
  | cons op t ih =>
    intro st h
    unfold runOps
    rw [List.foldl_cons]
    cases op with
    | openConn a => exact ih _ (open_preserves_unique env st a h)
    | closeConn c => exact ih _ h

theorem ExecuteCommand_ok_inv {conns : List SSHConnection} {command : Str} {server : Server}
    {outcome : ExecOutcome} {cmd : ServerCommand} {runErr : Option RunError} {server2 : Server}
    (h : ExecuteCommand conns command server outcome = Except.ok (cmd, runErr, server2)) :
    ∃ c stdout stderr,
      findConnection conns server.name = some c
      ∧ outcome = ExecOutcome.ran stdout stderr runErr
      ∧ cmd = { command := command,
                stdout := extractSudoPasswordFromOutput stdout c.host.sudoPassword,
                stderr := stderr, exitCode := extractExitCode runErr } := by
  unfold ExecuteCommand at h
  cases hf : findConnection conns server.name with
  | none => rw [hf] at h; exact absurd h (by simp)
  | some c =>
    rw [hf] at h
    cases outcome with
    | sessionFail => exact absurd h (by simp)
    | ptyFail => exact absurd h (by simp)
    | ran stdout stderr rE =>
      simp only [Except.ok.injEq, Prod.mk.injEq] at h
      obtain ⟨h1, h2, h3⟩ := h
      subst h2
      exact ⟨c, stdout, stderr, rfl, rfl, h1.symm⟩

theorem createSSHClient_ok_dialCount (env : CreateEnv) (host : Server)
    (hok : (createSSHClient env host).1.isOk = true) : (createSSHClient env host).2 = 1 := by
  unfold createSSHClient at hok ⊢
  cases hba : buildAuthMethods env host with
  | error e =>
    rw [hba] at hok
    simp [Except.isOk, Except.toBool] at hok
  | ok a2 =>
    show (match env.dial (GetFullAddress host) a2 with
      | Except.error _ => (Except.error ConnError.dialError, 1)
      | Except.ok client => (Except.ok (client, a2), 1)).2 = 1
    cases env.dial (GetFullAddress host) a2 <;> rfl

/-- Claim C4: for every captured stdout and password, the scrubbing step
splits stdout into lines; if any line contains the sudo prompt marker it
drops exactly the lines containing the marker or the password, preserving
the order of the rest; otherwise, if the first line contains the password,
it drops only that first line; the rejoined remainder replaces stdout. In
particular the prompt-form and echo-only-form examples scrub to
`"hello\n"`. -/
theorem claimC4_scrub :
    (∀ stdout password : Str,
      extractSudoPasswordFromOutput stdout password = scrubDescribed stdout password)
    ∧ extractSudoPasswordFromOutput ("[sudo] password for alice:\nsecret123\nhello\n".data)
        ("secret123".data) = "hello\n".data
    ∧ extractSudoPasswordFromOutput ("secret123\nhello\n".data) ("secret123".data)
        = "hello\n".data :=
  ⟨scrub_eq_scrubDescribed, by decide, by decide⟩

/-- Claim C10: when the stored sudo password is the empty string, the
substring test matches every line, so scrubbing yields the empty string
whenever the prompt marker appears anywhere in stdout, and otherwise always
drops the first line of stdout, regardless of its contents. -/
theorem claimC10_emptyPassword :
    ∀ stdout : Str,
      extractSudoPasswordFromOutput stdout [] =
        (if containsSub stdout sudoMarker then [] else joinNl ((splitOnNl stdout).tail)) := by
  intro stdout
  simp only [extractSudoPasswordFromOutput]
  by_cases h : containsSub stdout sudoMarker
  · rw [if_pos h, if_pos h]
    have hfilter : (splitOnNl stdout).filter
        (fun line => !containsSub line [] && !containsSub line sudoMarker) = [] := by
      rw [List.filter_eq_nil_iff]
      intro a ha
      simp [containsSub_nil_pat]
    rw [hfilter]
    rfl
  · rw [if_neg h, if_neg h]
    have hcond : (decide ((splitOnNl stdout).length > 0)
        && containsSub ((splitOnNl stdout).headD []) []) = true := by
      rw [containsSub_nil_pat, Bool.and_true, decide_eq_true_eq]
      exact List.length_pos.mpr (splitOnNl_ne_nil stdout)
    rw [hcond]
    rfl

/-- Claim C2 (corrected instance): the parse step discards line index 0,
takes the trimmed line index 1 as the inode, rejoins the remaining lines
(including the trailing empty segment produced by a final newline) as the
content, and composes the identity as address + "-" + inode; for stdout
`"\n1042\nline1\nline2\n"` and address `"10.0.0.5"` it yields identity
`"10.0.0.5-1042"` and content `"line1\nline2\n"`. -/
theorem claimC2_parse :
    (∀ (stdout l0 l1 : Str) (rest : List Str), splitOnNl stdout = l0 :: l1 :: rest →
        parseStdout stdout = some (trimSpace l1, joinNl rest))
    ∧ parseStdout ("\n1042\nline1\nline2\n".data)
        = some ("1042".data, "line1\nline2\n".data)
    ∧ resourceId ("10.0.0.5".data) ("1042".data) = "10.0.0.5-1042".data := by
  refine ⟨?_, by decide, by decide⟩
  intro stdout l0 l1 rest h
  unfold parseStdout
  rw [h]

/-- Witness for claim C2's theorem at the concrete stdout of the claim. -/
theorem claimC2_parse_witness :
    parseStdout ("\n1042\nline1\nline2\n".data)
      = some (trimSpace ("1042".data), joinNl ["line1".data, "line2".data, []]) :=
  claimC2_parse.1 ("\n1042\nline1\nline2\n".data) [] ("1042".data)
    ["line1".data, "line2".data, []] (by decide)

/-- Counterexample for claim C2 as stated: on stdout
`"\n1042\nline1\nline2\n"` the parse step yields content `"line1\nline2\n"`
(with the trailing newline), which differs from the claimed
`"line1\nline2"`. -/
theorem claimC2_counterexample :
    parseStdout ("\n1042\nline1\nline2\n".data)
        = some ("1042".data, "line1\nline2\n".data)
      ∧ ("line1\nline2\n".data == "line1\nline2".data) = false := by
  exact ⟨by decide, by decide⟩

theorem resolveCommandResult_keepsData (data : RemoteFileResourceModel)
    (res : Except ExecError (ServerCommand × Option RunError × Server)) :
    failKeepsData (resolveCommandResult data res) data = true := by
  rcases res with e | ⟨cmd, runErr, s2⟩
  · simp [resolveCommandResult, failKeepsData]
  · cases runErr with
    | some e => simp [resolveCommandResult, failKeepsData]
    | none =>
      simp only [resolveCommandResult]
      by_cases hc : cmd.exitCode ≠ 0
      · rw [if_pos hc]
        simp [failKeepsData]
      · rw [if_neg hc]
        rcases parseStdout cmd.stdout with _ | ⟨inode, content⟩
        · rfl
        · rfl

theorem resolveCommandResult_noExitCodeError (data : RemoteFileResourceModel)
    (conns : List SSHConnection) (cmdStr : Str) (server : Server) (outcome : ExecOutcome) :
    isExitCodeErrorResult (resolveCommandResult data
      (ExecuteCommand conns cmdStr server outcome)) = false := by
  rcases hex : ExecuteCommand conns cmdStr server outcome with e | ⟨cmd, runErr, s2⟩
  · rfl
  · cases runErr with
    | some e => rfl
    | none =>
      obtain ⟨c, stdout, stderr, hfc, ho, hcmd⟩ := ExecuteCommand_ok_inv hex
      subst hcmd
      simp only [resolveCommandResult, extractExitCode]
      rw [if_neg (by simp)]
      rcases parseStdout (extractSudoPasswordFromOutput stdout c.host.sudoPassword)
        with _ | ⟨inode, content⟩
      · rfl
      · rfl

/-- Claim C1 (code bug): when the combined command completes with exit status
2 and stderr "No such file", `getFile` fails with the raw `session.Run`
error returned through `ExecuteCommand` — not with the provider's
`ExitCodeError` — because a non-zero `ExitCode` forces a non-nil run error,
making the `ExitCodeError` branch unreachable on every input; on every
failure the resource model is left exactly as passed in. -/
theorem claimC1_exitCodeErrorUnreachable :
    getFile env0 [] (ExecOutcome.ran [] ("No such file".data) (some (RunError.exitStatus 2))) data0
        = GetFileResult.fail (GetFileError.runError (RunError.exitStatus 2)) data0
    ∧ (∀ (env : CreateEnv) (conns : List SSHConnection) (outcome : ExecOutcome)
        (data : RemoteFileResourceModel),
        isExitCodeErrorResult (getFile env conns outcome data) = false)
    ∧ (∀ (env : CreateEnv) (conns : List SSHConnection) (outcome : ExecOutcome)
        (data : RemoteFileResourceModel),
        failKeepsData (getFile env conns outcome data) data = true) := by
  refine ⟨by decide, ?_, ?_⟩
  · intro env conns outcome data
    simp only [getFile]
    rcases hop : OpenConnection env conns (serverForGetFile data) with ⟨r, conns1, dc⟩
    cases r with
    | error e => rfl
    | ok u =>
      exact resolveCommandResult_noExitCodeError data conns1
        (combinedCommand data.privileged data.path) (serverForGetFile data) outcome
  · intro env conns outcome data
    simp only [getFile]
    rcases hop : OpenConnection env conns (serverForGetFile data) with ⟨r, conns1, dc⟩
    cases r with
    | error e => simp [failKeepsData]
    | ok u =>
      exact resolveCommandResult_keepsData data _

theorem resolveCommandResult_ok_partition (data : RemoteFileResourceModel)
    (res : Except ExecError (ServerCommand × Option RunError × Server))
    (d : RemoteFileResourceModel) (h : resolveCommandResult data res = GetFileResult.ok d) :
    ∃ c, d.content = (if data.sensitive then [] else c)
      ∧ d.sensitiveContent = (if data.sensitive then c else []) := by
  rcases res with e | ⟨cmd, runErr, s2⟩
  · simp [resolveCommandResult] at h
  · cases runErr with
    | some e => simp [resolveCommandResult] at h
    | none =>
      simp only [resolveCommandResult] at h
      by_cases hc : cmd.exitCode ≠ 0
      · rw [if_pos hc] at h
        exact absurd h (by simp)
      · rw [if_neg hc] at h
        rcases hp : parseStdout cmd.stdout with _ | ⟨inode, content⟩
        · rw [hp] at h
          exact absurd h (by simp)
        · rw [hp] at h
          have h3 : GetFileResult.ok { data with
              id := resourceId data.hostConnection.host inode,
              content := if data.sensitive then [] else content,
              sensitiveContent := if data.sensitive then content else [] }
            = GetFileResult.ok d := h
          injection h3 with h2
          subst h2
          exact ⟨content, rfl, rfl⟩

/-- Claim C3 (corrected): for every successful resolve there is a single
parsed content value placed in exactly one of the two fields — the redacted
one iff `sensitive` is set — while the other field is the empty string;
when the parsed content is itself empty both fields are empty. -/
theorem claimC3_partition :
    ∀ (env : CreateEnv) (conns : List SSHConnection) (outcome : ExecOutcome)
      (data d : RemoteFileResourceModel),
      getFile env conns outcome data = GetFileResult.ok d →
      ∃ c, d.content = (if data.sensitive then [] else c)
        ∧ d.sensitiveContent = (if data.sensitive then c else []) := by
  intro env conns outcome data d h
  simp only [getFile] at h
  rcases hop : OpenConnection env conns (serverForGetFile data) with ⟨r, conns1, dc⟩
  rw [hop] at h
  cases r with
  | error e => simp at h
  | ok u =>
    have h2 : resolveCommandResult data
        (ExecuteCommand conns1 (combinedCommand data.privileged data.path)
          (serverForGetFile data) outcome) = GetFileResult.ok d := h
    exact resolveCommandResult_ok_partition _ _ _ h2

/-- Witness for claim C3's theorem at a concrete successful resolve. -/
theorem claimC3_partition_witness :
    ∃ c, ({ data0 with id := "10.0.0.5-1042".data, content := "hello".data }
            : RemoteFileResourceModel).content = (if data0.sensitive then [] else c)
      ∧ ({ data0 with id := "10.0.0.5-1042".data, content := "hello".data }
            : RemoteFileResourceModel).sensitiveContent
          = (if data0.sensitive then c else []) :=
  claimC3_partition env0 [] (ExecOutcome.ran ("x\n\n1042\nhello".data) [] none) data0
    { data0 with id := "10.0.0.5-1042".data, content := "hello".data } (by decide)

/-- Counterexample for claim C3 as stated: a successful resolve of an empty
file leaves BOTH the plain and the redacted content fields empty, so it is
not the case that exactly one of them is non-empty. -/
theorem claimC3_counterexample :
    getFile env0 [] (ExecOutcome.ran ("x\n\n1042".data) [] none) data0
        = GetFileResult.ok { data0 with id := "10.0.0.5-1042".data }
      ∧ ({ data0 with id := "10.0.0.5-1042".data }
          : RemoteFileResourceModel).content.isEmpty = true
      ∧ ({ data0 with id := "10.0.0.5-1042".data }
          : RemoteFileResourceModel).sensitiveContent.isEmpty = true := by
  exact ⟨by decide, by decide, by decide⟩

theorem ExecuteCommand_ran (conns : List SSHConnection) (cmdStr : Str) (server : Server)
    (stdout stderr : Str) (runErr : Option RunError) (c : SSHConnection)
    (hfind : findConnection conns server.name = some c) :
    ExecuteCommand conns cmdStr server (ExecOutcome.ran stdout stderr runErr)
      = Except.ok ({ command := cmdStr,
                     stdout := extractSudoPasswordFromOutput stdout c.host.sudoPassword,
                     stderr := stderr, exitCode := extractExitCode runErr }, runErr,
          { server with history := server.history ++
              [{ command := cmdStr,
                 stdout := extractSudoPasswordFromOutput stdout c.host.sudoPassword,
                 stderr := stderr, exitCode := extractExitCode runErr }] }) := by
  unfold ExecuteCommand
  rw [hfind]

theorem parseStdout_none_of_no_newline {s : Str} (h : '\n' ∉ s) : parseStdout s = none := by
  rw [parseStdout, splitOnNl_of_not_mem h]

theorem parseStdout_some_len {s : Str} {p : Str × Str} (h : parseStdout s = some p) :
    2 ≤ (splitOnNl s).length := by
  unfold parseStdout at h
  rcases hs : splitOnNl s with _ | ⟨a, _ | ⟨b, rest⟩⟩ <;> rw [hs] at h
  · exact absurd h (by simp)
  · exact absurd h (by simp)
  · simp [hs]

/-- Claim C9: the parse step indexes the split stdout at position 1 without a
length guard, so whenever an execution completes without a run error and its
scrubbed stdout contains no newline (for example, the empty string), the
access is out of bounds and `getFile` aborts with a runtime panic instead of
returning a typed error; `getFile` returns normally only when the scrubbed
stdout splits into at least two lines. -/
theorem claimC9_parsePanic :
    (∀ stdout : Str, '\n' ∉ stdout → parseStdout stdout = none)
    ∧ (∀ (stdout : Str) (p : Str × Str), parseStdout stdout = some p →
        2 ≤ (splitOnNl stdout).length)
    ∧ (∀ (env : CreateEnv) (conns : List SSHConnection) (data : RemoteFileResourceModel)
        (stdout stderr : Str) (c : SSHConnection),
        (OpenConnection env conns (serverForGetFile data)).1 = Except.ok ()
        → findConnection (OpenConnection env conns (serverForGetFile data)).2.1
            (serverForGetFile data).name = some c
        → parseStdout (extractSudoPasswordFromOutput stdout c.host.sudoPassword) = none
        → getFile env conns (ExecOutcome.ran stdout stderr none) data
            = GetFileResult.panicked)
    ∧ (∀ (env : CreateEnv) (conns : List SSHConnection) (outcome : ExecOutcome)
        (data d : RemoteFileResourceModel),
        getFile env conns outcome data = GetFileResult.ok d →
        ∃ (stdout stderr : Str) (c : SSHConnection),
          outcome = ExecOutcome.ran stdout stderr none
          ∧ findConnection (OpenConnection env conns (serverForGetFile data)).2.1
              (serverForGetFile data).name = some c
          ∧ 2 ≤ (splitOnNl (extractSudoPasswordFromOutput stdout c.host.sudoPassword)).length) := by
  refine ⟨fun stdout h => parseStdout_none_of_no_newline h,
    fun stdout p h => parseStdout_some_len h, ?_, ?_⟩
  · intro env conns data stdout stderr c hopOk hfind hparse
    simp only [getFile]
    rcases hop : OpenConnection env conns (serverForGetFile data) with ⟨r, conns1, dc⟩
    rw [hop] at hopOk hfind
    simp only at hopOk hfind
    cases r with
    | error e => exact absurd hopOk (by simp)
    | ok u =>
      show resolveCommandResult data
        (ExecuteCommand conns1 (combinedCommand data.privileged data.path)
          (serverForGetFile data) (ExecOutcome.ran stdout stderr none))
        = GetFileResult.panicked
      rw [ExecuteCommand_ran _ _ _ _ _ _ _ hfind]
      simp only [resolveCommandResult, extractExitCode]
      rw [if_neg (by simp)]
      rw [hparse]
  · intro env conns outcome data d h
    simp only [getFile] at h
    rcases hop : OpenConnection env conns (serverForGetFile data) with ⟨r, conns1, dc⟩
    rw [hop] at h
    cases r with
    | error e => simp at h
    | ok u =>
      have h2 : resolveCommandResult data
          (ExecuteCommand conns1 (combinedCommand data.privileged data.path)
            (serverForGetFile data) outcome) = GetFileResult.ok d := h
      rcases hex : ExecuteCommand conns1 (combinedCommand data.privileged data.path)
          (serverForGetFile data) outcome with e | ⟨cmd, runErr, s2⟩
      · rw [hex] at h2
        simp [resolveCommandResult] at h2
      · rw [hex] at h2
        cases runErr with
        | some e => simp [resolveCommandResult] at h2
        | none =>
          obtain ⟨c, stdout, stderr, hfc, ho, hcmd⟩ := ExecuteCommand_ok_inv hex
          subst ho
          refine ⟨stdout, stderr, c, rfl, ?_, ?_⟩
          · exact hfc
          · subst hcmd
            simp only [resolveCommandResult, extractExitCode] at h2
            rw [if_neg (by simp)] at h2
            rcases hp : parseStdout (extractSudoPasswordFromOutput stdout c.host.sudoPassword)
              with _ | ⟨inode, content⟩
            · rw [hp] at h2
              simp at h2
            · exact parseStdout_some_len hp

/-- Witness for claim C9's theorem: with no prior connection, a successful
open, and an execution returning empty raw stdout, scrubbing leaves the
empty string, the parse has no line index 1, and `getFile` panics; also the
newline-free parse hypothesis at a concrete string. -/
theorem claimC9_parsePanic_witness :
    parseStdout ("1042".data) = none
    ∧ getFile env0 [] (ExecOutcome.ran [] [] none) data0 = GetFileResult.panicked :=
  ⟨claimC9_parsePanic.1 ("1042".data) (by decide),
   claimC9_parsePanic.2.2.1 env0 [] data0 [] [] ⟨serverForGetFile data0, 0⟩
     (by decide) (by decide) (by decide)⟩

/-- Claim C5: from a registry with no connection for the server's name, and a
client creation that succeeds, `open` registers exactly one connection for
that name and performs exactly one dial; the second `open` returns success
with no side effects (registry unchanged, zero dials). -/
theorem claimC5_idempotentOpen (env : CreateEnv) (conns : List SSHConnection) (host : Server)
    (client : Nat) (auths : List AuthMethod)
    (hnone : findConnection conns host.name = none)
    (hclient : (createSSHClient env host).1 = Except.ok (client, auths)) :
    OpenConnection env conns host = (Except.ok (), conns ++ [⟨host, client⟩], 1)
    ∧ OpenConnection env (conns ++ [⟨host, client⟩]) host
        = (Except.ok (), conns ++ [⟨host, client⟩], 0)
    ∧ (List.filter (fun c2 : SSHConnection => c2.host.name == host.name)
        (conns ++ [⟨host, client⟩])).length = 1 := by
  have hd : (createSSHClient env host).2 = 1 :=
    createSSHClient_ok_dialCount env host (by rw [hclient]; rfl)
  refine ⟨?_, ?_, ?_⟩
  · unfold OpenConnection
    rcases hcc : createSSHClient env host with ⟨r, d⟩
    rw [hcc] at hclient hd
    simp only at hclient hd
    subst hclient
    subst hd
    rw [hnone]
  · have hfind2 : findConnection (conns ++ [⟨host, client⟩]) host.name
        = some ⟨host, client⟩ := by
      unfold findConnection at hnone ⊢
      rw [find?_append_of_none hnone]
      simp [List.find?_cons]
    unfold OpenConnection
    rw [hfind2]
  · rw [List.filter_append]
    have h1 : List.filter (fun c2 : SSHConnection => c2.host.name == host.name) conns = [] := by
      rw [List.filter_eq_nil_iff]
      intro a ha
      simpa using List.find?_eq_none.mp hnone a ha
    rw [h1]
    simp [List.filter]

/-- Witness for claim C5's theorem: opening a fresh server twice against the
empty registry. -/
theorem claimC5_idempotentOpen_witness :
    OpenConnection env0 [] server1 = (Except.ok (), [] ++ [⟨server1, 0⟩], 1)
    ∧ OpenConnection env0 ([] ++ [⟨server1, 0⟩]) server1
        = (Except.ok (), [] ++ [⟨server1, 0⟩], 0)
    ∧ (List.filter (fun c2 : SSHConnection => c2.host.name == server1.name)
        ([] ++ [⟨server1, 0⟩])).length = 1 :=
  claimC5_idempotentOpen env0 [] server1 0 [] (by decide) (by decide)

/-- Claim C6: after bulk construction and any sequence of open/close calls,
no two registered connections share a server name, and opening a name that
is already connected is a success-returning no-op (registry unchanged, no
dial) that never inserts a second entry. -/
theorem claimC6_registryUnique :
    (∀ (env : CreateEnv) (hosts : List Server), uniqueNames (NewSSHService env hosts))
    ∧ (∀ (env : CreateEnv) (init : List SSHConnection) (ops : List ServiceOp),
        uniqueNames init → uniqueNames (runOps env ops init))
    ∧ (∀ (env : CreateEnv) (hosts : List Server) (ops : List ServiceOp),
        uniqueNames (runOps env ops (NewSSHService env hosts)))
    ∧ (∀ (env : CreateEnv) (conns : List SSHConnection) (host : Server) (c : SSHConnection),
        findConnection conns host.name = some c →
        OpenConnection env conns host = (Except.ok (), conns, 0)) := by
  refine ⟨newService_unique,
    fun env init ops h => runOps_preserves_unique env ops init h,
    fun env hosts ops => runOps_preserves_unique env ops _ (newService_unique env hosts), ?_⟩
  intro env conns host c hfind
  unfold OpenConnection
  rw [hfind]

/-- Witness for claim C6's theorem: a duplicate-name bulk construction
followed by open/close/open keeps names unique, and re-opening a registered
name is the identity. -/
theorem claimC6_registryUnique_witness :
    uniqueNames (runOps env0
      [ServiceOp.openConn server1, ServiceOp.closeConn ⟨server1, 0⟩,
        ServiceOp.openConn server1]
      (NewSSHService env0 [server1, server1]))
    ∧ OpenConnection env0 [⟨serverKey, 0⟩] serverKey
        = (Except.ok (), [⟨serverKey, 0⟩], 0) :=
  ⟨claimC6_registryUnique.2.2.1 env0 [server1, server1]
      [ServiceOp.openConn server1, ServiceOp.closeConn ⟨server1, 0⟩,
        ServiceOp.openConn server1],
   claimC6_registryUnique.2.2.2 env0 [⟨serverKey, 0⟩] serverKey ⟨serverKey, 0⟩ (by decide)⟩

/-- Claim C7: for every server with a non-empty private-key path and no
registered connection, whenever the key file cannot be read (and the
zero-value key material the code then parses is rejected, as an SSH key
parse of no bytes always is) or the read key material cannot be parsed,
client creation and `open` fail with a `ConnectionError` — including when
the server also has a password configured. -/
theorem claimC7_keyFailure (env : CreateEnv) (conns : List SSHConnection) (host : Server)
    (hkey : host.privateKeyPath.length > 0)
    (hnone : findConnection conns host.name = none)
    (hfail :
      ((∃ er, env.readFile host.privateKeyPath = Except.error er)
        ∧ (∃ ep, env.parsePrivateKey [] = Except.error ep))
      ∨ (∃ bytes ep, env.readFile host.privateKeyPath = Except.ok bytes
          ∧ env.parsePrivateKey bytes = Except.error ep)) :
    ∃ e, (createSSHClient env host).1 = Except.error e
      ∧ (OpenConnection env conns host).1 = Except.error e := by
  have hba : ∃ e, buildAuthMethods env host = Except.error e := by
    simp only [buildAuthMethods]
    rw [if_pos hkey]
    rcases hfail with ⟨⟨er, hr⟩, ⟨ep, hp⟩⟩ | ⟨bytes, ep, hb, hp⟩
    · simp only [hr]
      by_cases hpw : host.password.length = 0
      · rw [if_pos hpw]
        exact ⟨ConnError.readKeyError, rfl⟩
      · rw [if_neg hpw]
        simp only [hp]
        exact ⟨ConnError.parseKeyError, rfl⟩
    · simp only [hb, hp]
      exact ⟨ConnError.parseKeyError, rfl⟩
  obtain ⟨e, he⟩ := hba
  have hc : createSSHClient env host = (Except.error e, 0) := by
    unfold createSSHClient
    rw [he]
  refine ⟨e, by rw [hc], ?_⟩
  unfold OpenConnection
  rw [hnone, hc]

/-- Witness for claim C7's theorem: a server with both a password and a key
path, an unreadable key file, and a parser rejecting the empty key material. -/
theorem claimC7_keyFailure_witness :
    ∃ e, (createSSHClient env0 serverKey).1 = Except.error e
      ∧ (OpenConnection env0 [] serverKey).1 = Except.error e :=
  claimC7_keyFailure env0 [] serverKey (by decide) (by decide)
    (Or.inl ⟨⟨(), rfl⟩, ⟨(), rfl⟩⟩)

theorem buildAuthMethods_getFile_noPassword (env : CreateEnv)
    (data : RemoteFileResourceModel) (auth2 : List AuthMethod)
    (h : buildAuthMethods env (serverForGetFile data) = Except.ok auth2) :
    auth2.all (fun a => !isPasswordAuth a) = true := by
  simp only [buildAuthMethods, serverForGetFile, List.length_nil, gt_iff_lt,
    lt_self_iff_false, if_false] at h
  by_cases hk : data.hostConnection.privateKey.length > 0
  · rw [if_pos hk] at h
    rcases hr : env.readFile data.hostConnection.privateKey with er | bytes
    · simp only [hr] at h
      simp at h
    · simp only [hr] at h
      rcases hp : env.parsePrivateKey bytes with ep | signer
      · simp only [hp] at h
        exact absurd h (by simp)
      · simp only [hp, Except.ok.injEq] at h
        subst h
        rfl
  · rw [if_neg hk] at h
    simp only [Except.ok.injEq] at h
    subst h
    rfl

/-- Claim C8: the server descriptor built by `getFile` always has the empty
string as its password (the `host_connection` password attribute is never
copied into it), port 22, and name equal to its address (the block's host);
consequently the auth method list `createSSHClient` dials with for that
descriptor never includes password authentication. -/
theorem claimC8_serverFields :
    ∀ (data : RemoteFileResourceModel) (env : CreateEnv),
      (serverForGetFile data).password = []
      ∧ (serverForGetFile data).port = 22
      ∧ (serverForGetFile data).name = (serverForGetFile data).address
      ∧ (serverForGetFile data).address = data.hostConnection.host
      ∧ (∀ (client : Nat) (auths : List AuthMethod),
          (createSSHClient env (serverForGetFile data)).1 = Except.ok (client, auths) →
          auths.all (fun a => !isPasswordAuth a) = true) := by
  intro data env
  refine ⟨rfl, rfl, rfl, rfl, ?_⟩
  intro client auths h
  unfold createSSHClient at h
  rcases hbam : buildAuthMethods env (serverForGetFile data) with e | auth2
  · rw [hbam] at h
    exact absurd h (by simp)
  · rw [hbam] at h
    simp only at h
    rcases hd : env.dial (GetFullAddress (serverForGetFile data)) auth2 with de | cl
    · rw [hd] at h
      exact absurd h (by simp)
    · rw [hd] at h
      simp only [Except.ok.injEq, Prod.mk.injEq] at h
      obtain ⟨h1, h2⟩ := h
      subst h2
      exact buildAuthMethods_getFile_noPassword env data auth2 hbam

/-- Witness for claim C8's theorem at a host_connection block that carries a
password: the built server still has no password and the dialled auth list
contains no password method. -/
theorem claimC8_serverFields_witness :
    (serverForGetFile dataPw).password = []
    ∧ ([] : List AuthMethod).all (fun a => !isPasswordAuth a) = true :=
  ⟨(claimC8_serverFields dataPw env0).1,
   (claimC8_serverFields dataPw env0).2.2.2.2 0 [] (by decide)⟩
